import Mathlib

/-!
Shallow embedding of sp500_strategy.py: the data-acquisition functions
(get_market_data, get_fear_and_greed_index), the metric computation and the
decision rules of main. Prices are modelled as rationals, the pandas frame as
a list of daily records, and the external HTTP world as explicit outcome
types over which the functions are total.
-/

set_option autoImplicit false

namespace SP500

/-- One row of the yfinance history frame: columns Open, High, Low, Close,
Volume, indexed by date (dates abstracted to ordinals). -/
structure PriceRec where
  date : Nat
  openP : ℚ
  high : ℚ
  low : ℚ
  close : ℚ
  volume : ℚ
  deriving DecidableEq

/-- Outcome of the external yfinance call in get_market_data (line 20):
the source is unreachable, the source answers with no data, or it answers
with a history frame. -/
inductive YfOutcome where
  | unreachable
  | noData
  | ok (hist : List PriceRec)
  deriving DecidableEq

/-- Modelled from the spec: the body of ticker.history(period="max") lives in
the external yfinance library, not under src/. Per the spec of the Price
History Provider, when the source is unreachable or returns no data the call
yields an empty series rather than raising (yfinance logs errors and returns
an empty frame under its default raise_errors=False). -/
def ticker_history : YfOutcome → List PriceRec
  | .unreachable => []
  | .noData => []
  | .ok hist => hist

/-- get_market_data (src lines 17-21): constructs the ticker and returns
ticker.history(period="max") unchanged; the function body adds no error
handling of its own. -/
def get_market_data (o : YfOutcome) : List PriceRec :=
  ticker_history o

/-- The score slot of the returned pair: the int produced on line 37, or the
string "N/A" returned by either except branch (lines 48 and 51). -/
inductive ScoreVal where
  | int (n : Int)
  | na
  deriving DecidableEq

/-- A JSON value found under fear_and_greed.score: an integer, a float, or a
string, all of which Python feeds to int(...) on line 37. -/
inductive JsonNum where
  | jint (n : Int)
  | jfloat (q : ℚ)
  | jstr (s : String)
  deriving DecidableEq

/-- Python int(float) truncates toward zero. -/
def truncToInt (q : ℚ) : Int :=
  if 0 ≤ q then ⌊q⌋ else -⌊-q⌋

/-- A nonempty all-digit character list read as a decimal numeral; otherwise
none. -/
def parseDigits (cs : List Char) : Option Nat :=
  if cs ≠ [] ∧ cs.all Char.isDigit then
    some (cs.foldl (fun a c => a * 10 + (c.toNat - 48)) 0)
  else none

/-- ASCII whitespace, as stripped by Python int() from a string argument. -/
def isSpaceChar (c : Char) : Bool :=
  c = ' ' ∨ c = '\t' ∨ c = '\n' ∨ c = '\r' ∨ c = '\x0b' ∨ c = '\x0c'

/-- Strip whitespace from both ends of a character list. -/
def stripChars (cs : List Char) : List Char :=
  ((cs.dropWhile isSpaceChar).reverse.dropWhile isSpaceChar).reverse

/-- Python int(s) on a string: surrounding whitespace is stripped, an
optional sign is allowed, then decimal digits; anything else (such as a
fractional part) raises ValueError, modelled as none. (Python additionally
accepts underscore digit separators and non-ASCII digits; no claim touches
those inputs.) -/
def pyIntOfString (s : String) : Option Int :=
  match stripChars s.data with
  | '-' :: rest => (parseDigits rest).map (fun n => -(n : Int))
  | '+' :: rest => (parseDigits rest).map (fun n => (n : Int))
  | cs => (parseDigits cs).map (fun n => (n : Int))

/-- Python int(x) on the JSON value found under fear_and_greed.score. -/
def pyInt : JsonNum → Option Int
  | .jint n => some n
  | .jfloat q => some (truncToInt q)
  | .jstr s => pyIntOfString s

/-- The fields the code reads out of the decoded JSON body: none in a field
models a missing key or a value of the wrong shape (KeyError / TypeError /
AttributeError on lines 37-44, all caught by the generic except). -/
structure FngPayload where
  score : Option JsonNum
  rating : Option String
  deriving DecidableEq

/-- Outcome of requests.get on line 33: a raised RequestException (network
failure / timeout), or a response with a status code and a body; body = none
models a body that response.json() cannot decode. -/
inductive HttpOutcome where
  | netFailure
  | response (status : Nat) (body : Option FngPayload)
  deriving DecidableEq

/-- The translation table of lines 40-43. -/
def translations : List (String × String) :=
  [("extreme fear", "极度恐惧 🥶"), ("fear", "恐惧 😨"), ("neutral", "中性 😐"),
   ("greed", "贪婪 🤑"), ("extreme greed", "极度贪婪 😈")]

/-- Lower an ASCII upper-case letter; other characters are unchanged. -/
def lowerChar (c : Char) : Char :=
  if 65 ≤ c.toNat ∧ c.toNat ≤ 90 then Char.ofNat (c.toNat + 32) else c

/-- Python str.lower, restricted to ASCII case folding (Python also folds
non-ASCII letters; the lookup table is pure ASCII, so the two agree on every
string whose lowering hits the table, and claims are stated over ASCII
folding). -/
def pyLower (s : String) : String :=
  String.mk (s.data.map lowerChar)

/-- Line 44: translations.get(rating_en.lower(), rating_en). -/
def translateRating (rating_en : String) : String :=
  match translations.lookup (pyLower rating_en) with
  | some t => t
  | none => rating_en

/-- get_fear_and_greed_index (src lines 24-51) as a function of the HTTP
outcome. raise_for_status (line 34) raises HTTPError exactly for status
codes 400-599, and HTTPError is a RequestException, so those land in the
first except branch ("获取失败"); an undecodable body raises
requests JSONDecodeError, also a RequestException; every extraction or
conversion failure afterwards lands in the generic except branch
("处理失败"). The function is total: no outcome escapes as an exception. -/
def get_fear_and_greed_index (o : HttpOutcome) : ScoreVal × String :=
  match o with
  | .netFailure => (.na, "获取失败")
  | .response status body =>
    if 400 ≤ status ∧ status < 600 then (.na, "获取失败")
    else
      match body with
      | none => (.na, "获取失败")
      | some payload =>
        match payload.score, payload.rating with
        | some sj, some rating_en =>
          match pyInt sj with
          | some n => (.int n, translateRating rating_en)
          | none => (.na, "处理失败")
        | _, _ => (.na, "处理失败")

/-- The metrics main derives on lines 117-121. -/
structure Metrics where
  all_time_high : ℚ
  current_price : ℚ
  drawdown_percent : ℚ
  deriving DecidableEq

/-- Lines 110-121 of main: behind the emptiness guard (line 110, modelled as
none), all_time_high = hist["High"].max(), current_price =
hist["Close"].iloc[-1], drawdown_percent =
(all_time_high - current_price) / all_time_high * 100. -/
def mainMetrics : List PriceRec → Option Metrics
  | [] => none
  | r :: rs =>
    let ath := rs.foldl (fun m x => max m x.high) r.high
    let cur := (List.getLast (r :: rs) (List.cons_ne_nil r rs)).close
    some ⟨ath, cur, (ath - cur) / ath * 100⟩

/-- pandas .iloc with an integer position: a negative position counts from
the end; an out-of-range position raises IndexError, modelled as none. -/
def iloc {α : Type} (l : List α) (i : Int) : Option α :=
  let j : Int := if i < 0 then (l.length : Int) + i else i
  if 0 ≤ j then l.get? j.toNat else none

/-- The positional reads main performs once the emptiness guard has passed:
hist["Close"].iloc[-1] (line 118), hist.index[-1] (line 119, also line 151),
and hist["Close"].iloc[-2] (line 128, the previous-day delta). -/
structure MainReads where
  current_price : Option ℚ
  prev_close : Option ℚ
  current_date : Option Nat
  deriving DecidableEq

/-- Lines 110-128 of main, restricted to its positional accesses: for an
empty frame the guard returns early (none); otherwise all three reads are
performed unconditionally. -/
def mainReads (hist : List PriceRec) : Option MainReads :=
  if hist.isEmpty then none
  else some
    { current_price := iloc (hist.map PriceRec.close) (-1)
      prev_close := iloc (hist.map PriceRec.close) (-2)
      current_date := iloc (hist.map PriceRec.date) (-1) }

/-- Line 136: isinstance(fg_score, int) and fg_score <= 25. The string "N/A"
fails the isinstance test. -/
def is_extreme_fear (fg_score : ScoreVal) : Bool :=
  match fg_score with
  | .int n => decide (n ≤ 25)
  | .na => false

/-- Which branch of the if/elif/else on lines 139-147 runs; drawdownMet also
records whether the extra extreme-fear info box (line 141) shows. -/
inductive Branch where
  | drawdownMet (extremeToo : Bool)
  | extremeFear
  | hold
  deriving DecidableEq

/-- The displayed recommendation: the first two branches show 建议定投 (BUY),
the else branch 建议观望 (HOLD). -/
inductive Action where
  | BUY
  | HOLD
  deriving DecidableEq

/-- Lines 135-147 of main: is_drawdown_met = drawdown_percent >=
drawdown_threshold drives the first branch, is_extreme_fear the elif. -/
def mainDecision (drawdown_percent drawdown_threshold : ℚ)
    (fg_score : ScoreVal) : Branch :=
  if drawdown_percent ≥ drawdown_threshold then
    .drawdownMet (is_extreme_fear fg_score)
  else if is_extreme_fear fg_score then .extremeFear
  else .hold

/-- The action each branch displays. -/
def actionOf : Branch → Action
  | .drawdownMet _ => .BUY
  | .extremeFear => .BUY
  | .hold => .HOLD

/-- Failure modes of the sentiment call that land in one of the two except
branches: a raised RequestException, a 4xx/5xx status, an undecodable body,
a missing score or rating field, or a score value int() cannot convert. -/
def fngFailure : HttpOutcome → Bool
  | .netFailure => true
  | .response _ none => true
  | .response status (some p) =>
    decide (400 ≤ status ∧ status < 600) ||
    (match p.score, p.rating with
     | some j, some _ => (pyInt j).isNone
     | _, _ => true)

/-- The seed of the running maximum bounds the fold over the high column. -/
theorem le_foldl_high_max (a : ℚ) (l : List PriceRec) :
    a ≤ l.foldl (fun m x => max m x.high) a := by
  induction l generalizing a with
  | nil => exact le_refl a
  | cons r rs ih => exact le_trans (le_max_left a r.high) (ih (max a r.high))

/-- Every high in the list is bounded by the fold over the high column. -/
theorem high_le_foldl_max {r : PriceRec} {l : List PriceRec} (h : r ∈ l) :
    ∀ a : ℚ, r.high ≤ l.foldl (fun m x => max m x.high) a := by
  induction h with
  | head xs =>
    intro a
    exact le_trans (le_max_right a r.high) (le_foldl_high_max (max a r.high) xs)
  | tail x hmem ih =>
    intro a
    exact ih (max a x.high)

/-- The fold over the high column is the seed or one of the highs. -/
theorem foldl_high_max_cases (l : List PriceRec) :
    ∀ a : ℚ, l.foldl (fun m x => max m x.high) a = a ∨
      ∃ r ∈ l, l.foldl (fun m x => max m x.high) a = r.high := by
  induction l with
  | nil => exact fun a => Or.inl rfl
  | cons x xs ih =>
    intro a
    rcases ih (max a x.high) with h | ⟨r, hr, he⟩
    · rcases max_choice a x.high with hm | hm
      · exact Or.inl (h.trans hm)
      · exact Or.inr ⟨x, List.mem_cons_self x xs, h.trans hm⟩
    · exact Or.inr ⟨r, List.mem_cons_of_mem x hr, he⟩

/-- A lookup misses when no key of the association list equals the query. -/
theorem lookup_eq_none_of_keys_ne (a : String) (l : List (String × String))
    (h : ∀ p ∈ l, p.1 ≠ a) : l.lookup a = none := by
  induction l with
  | nil => rfl
  | cons p ps ih =>
    have hne : (a == p.1) = false :=
      beq_eq_false_iff_ne.mpr fun he => h p (List.mem_cons_self p ps) he.symm
    simp only [List.lookup, hne]
    exact ih fun q hq => h q (List.mem_cons_of_mem p hq)

/-- Claim C1 (amended): for a non-empty series in which every high is at
least the close of its row and whose all-time high is positive, the metrics
of main satisfy: all_time_high is the maximum of the high column,
current_price is the close of the last row, drawdown_percent follows the
formula (all_time_high - current_price) / all_time_high * 100, and
drawdown_percent is non-negative. The positivity hypothesis is forced by
the counterexample: on an all-negative series the quotient flips sign. -/
theorem drawdown_formula_nonneg (hist : List PriceRec) (m : Metrics)
    (hm : mainMetrics hist = some m)
    (hc : ∀ r ∈ hist, r.close ≤ r.high)
    (hpos : 0 < m.all_time_high) :
    (∀ r ∈ hist, r.high ≤ m.all_time_high) ∧
    (∃ r ∈ hist, m.all_time_high = r.high) ∧
    (∀ hne : hist ≠ [], m.current_price = (hist.getLast hne).close) ∧
    m.drawdown_percent =
      (m.all_time_high - m.current_price) / m.all_time_high * 100 ∧
    0 ≤ m.drawdown_percent := by
  match hist, hm with
  | r :: rs, hm =>
    simp only [mainMetrics, Option.some.injEq] at hm
    subst hm
    have hub : ∀ x ∈ r :: rs,
        x.high ≤ rs.foldl (fun m x => max m x.high) r.high := by
      intro x hx
      rcases List.mem_cons.mp hx with h1 | h2
      · subst h1; exact le_foldl_high_max x.high rs
      · exact high_le_foldl_max h2 r.high
    have hmem : ∃ x ∈ r :: rs,
        rs.foldl (fun m x => max m x.high) r.high = x.high := by
      rcases foldl_high_max_cases rs r.high with h | ⟨x, hx, he⟩
      · exact ⟨r, List.mem_cons_self r rs, h⟩
      · exact ⟨x, List.mem_cons_of_mem r hx, he⟩
    have hlast : (r :: rs).getLast (List.cons_ne_nil r rs) ∈ r :: rs :=
      List.getLast_mem (List.cons_ne_nil r rs)
    have hcur : ((r :: rs).getLast (List.cons_ne_nil r rs)).close ≤
        rs.foldl (fun m x => max m x.high) r.high :=
      le_trans (hc _ hlast) (hub _ hlast)
    refine ⟨hub, hmem, fun hne => rfl, rfl, ?_⟩
    exact mul_nonneg
      (div_nonneg (sub_nonneg.mpr hcur) (le_of_lt hpos)) (by norm_num)

/-- Claim C1 witness: a positive one-row series through the amended
statement. -/
theorem drawdown_formula_nonneg_wit :
    (∀ r ∈ [PriceRec.mk 0 1 2 1 2 1], r.close ≤ r.high) ∧
    0 < ((2 : ℚ)) ∧ 0 ≤ ((2 : ℚ) - 2) / 2 * 100 := by
  refine ⟨by decide, by norm_num, ?_⟩
  exact (drawdown_formula_nonneg [PriceRec.mk 0 1 2 1 2 1]
    ⟨2, 2, (2 - 2) / 2 * 100⟩ rfl (by decide) (by norm_num)).2.2.2.2

/-- Claim C1 counterexample: the series with the single row high = -2,
close = -4 is non-empty and has high at least close on every row, yet main
computes drawdown_percent = (-2 - (-4)) / (-2) * 100 = -100 < 0. -/
theorem drawdown_negative_cex :
    (∀ r ∈ [PriceRec.mk 0 (-4) (-2) (-4) (-4) 0], r.close ≤ r.high) ∧
    mainMetrics [PriceRec.mk 0 (-4) (-2) (-4) (-4) 0] =
      some ⟨-2, -4, -100⟩ ∧ ((-100 : ℚ) < 0) := by
  refine ⟨by decide, ?_, by norm_num⟩
  simp only [mainMetrics, Option.some.injEq]
  norm_num [List.getLast]

/-- Claim C2: get_market_data hands back the frame of ticker.history
unchanged, so on an unreachable source or an empty answer the result is the
empty series; as a total function of the fetch outcome it propagates no
exception. -/
theorem market_data_empty_on_failure :
    get_market_data .unreachable = [] ∧ get_market_data .noData = [] ∧
    ∀ o : YfOutcome, ∃ hist : List PriceRec, get_market_data o = hist :=
  ⟨rfl, rfl, fun o => ⟨ticker_history o, rfl⟩⟩

/-- Claim C3 counterexample: a response with the non-2xx status 301 and a
decodable body passes raise_for_status (which raises only for 400-599), so
the function returns the numeric score 40 instead of the unavailable
reading. -/
theorem fng_non2xx_cex :
    get_fear_and_greed_index
        (.response 301 (some ⟨some (.jint 40), some "fear"⟩)) =
      (.int 40, "恐惧 😨") ∧ ¬(200 ≤ 301 ∧ 301 < 300) :=
  ⟨by decide, by decide⟩

/-- Claim C3 (amended): on every failure outcome — network failure, 4xx/5xx
status (the statuses raise_for_status flags), undecodable body, or a payload
without an extractable score and rating — the returned reading carries the
unavailable score marker; the function is total, so no outcome escapes as an
exception. A non-2xx status outside 400-599 with a decodable payload is
processed as a success, which is what the counterexample exhibits. -/
theorem fng_failures_unavailable (o : HttpOutcome)
    (h : fngFailure o = true) :
    (get_fear_and_greed_index o).1 = ScoreVal.na := by
  cases o with
  | netFailure => rfl
  | response s body =>
    cases body with
    | none =>
      simp only [get_fear_and_greed_index]
      split <;> rfl
    | some p =>
      simp only [fngFailure, Bool.or_eq_true, decide_eq_true_eq] at h
      simp only [get_fear_and_greed_index]
      split
      · rfl
      · rename_i hns
        rcases h with h45 | hrest
        · exact absurd h45 hns
        · rcases hsc : p.score with _ | j
          · simp [hsc]
          · rcases hra : p.rating with _ | ra
            · simp [hsc, hra]
            · rw [hsc, hra] at hrest
              simp only [Option.isNone_iff_eq_none] at hrest
              simp [hsc, hra, hrest]

/-- Claim C3 witness: a network failure through the amended statement. -/
theorem fng_failures_unavailable_wit :
    fngFailure .netFailure = true ∧
    (get_fear_and_greed_index .netFailure).1 = ScoreVal.na :=
  ⟨rfl, fng_failures_unavailable .netFailure rfl⟩

/-- Claim C4: when the drawdown is strictly below the threshold and the
score is the non-integer marker "N/A", the isinstance test fails, so the
else branch runs and the recommendation is HOLD. -/
theorem hold_when_sentiment_na (dd thr : ℚ) (h : dd < thr) :
    mainDecision dd thr ScoreVal.na = Branch.hold ∧
    actionOf (mainDecision dd thr ScoreVal.na) = Action.HOLD := by
  have hm : ¬dd ≥ thr := not_le.mpr h
  constructor
  · simp [mainDecision, is_extreme_fear, hm]
  · simp [mainDecision, is_extreme_fear, hm, actionOf]

/-- Claim C4 witness: drawdown 2 percent against a 10 percent threshold. -/
theorem hold_when_sentiment_na_wit :
    (2 : ℚ) < 10 ∧ actionOf (mainDecision 2 10 ScoreVal.na) = Action.HOLD :=
  ⟨by norm_num, (hold_when_sentiment_na 2 10 (by norm_num)).2⟩

/-- Claim C5: when the drawdown is strictly below the threshold and the
score is a valid integer at most 25, the elif branch (extreme fear) runs
and the recommendation is BUY. -/
theorem buy_extreme_fear_branch (dd thr : ℚ) (n : Int)
    (hdd : dd < thr) (hn : n ≤ 25) :
    mainDecision dd thr (ScoreVal.int n) = Branch.extremeFear ∧
    actionOf (mainDecision dd thr (ScoreVal.int n)) = Action.BUY := by
  have hm : ¬dd ≥ thr := not_le.mpr hdd
  constructor
  · simp [mainDecision, is_extreme_fear, hm, hn]
  · simp [mainDecision, is_extreme_fear, hm, hn, actionOf]

/-- Claim C5 witness: drawdown 5 percent, threshold 10 percent, score 20. -/
theorem buy_extreme_fear_branch_wit :
    (5 : ℚ) < 10 ∧ (20 : Int) ≤ 25 ∧
    actionOf (mainDecision 5 10 (ScoreVal.int 20)) = Action.BUY :=
  ⟨by norm_num, by norm_num,
    (buy_extreme_fear_branch 5 10 20 (by norm_num) (by norm_num)).2⟩

/-- Claim C6: at exact equality of drawdown and threshold the comparison
drawdown_percent >= drawdown_threshold holds, so the first branch runs and
the recommendation is BUY, whatever the sentiment reading is. -/
theorem buy_at_threshold_boundary (t : ℚ) (s : ScoreVal) :
    actionOf (mainDecision t t s) = Action.BUY := by
  simp [mainDecision, le_refl, actionOf]

/-- Claim C7 is violated by the code: a one-row frame passes the emptiness
guard of line 110, yet main still evaluates hist["Close"].iloc[-2] on line
128, which is out of bounds for a series of length 1 (IndexError): the
second-to-last read yields none while the two last-position reads
succeed. -/
theorem single_row_prev_close_oob :
    [PriceRec.mk 7 1 2 1 5 3] ≠ [] ∧
    mainReads [PriceRec.mk 7 1 2 1 5 3] =
      some ⟨some 5, none, some 7⟩ :=
  ⟨by decide, by decide⟩

/-- Claim C8: any string whose ASCII lowering is "extreme fear" hits the
translation table and maps to the fixed extreme-fear category string, and
any string whose lowering is none of the five table keys falls back to the
dictionary-get default and passes through unchanged. -/
theorem rating_translation_cases (s : String) :
    (pyLower s = "extreme fear" → translateRating s = "极度恐惧 🥶") ∧
    (pyLower s ∉ translations.map Prod.fst → translateRating s = s) := by
  constructor
  · intro h
    unfold translateRating
    rw [h]
    rfl
  · intro h
    have hnone : translations.lookup (pyLower s) = none :=
      lookup_eq_none_of_keys_ne (pyLower s) translations
        (fun p hp he => h (he ▸ List.mem_map_of_mem Prod.fst hp))
    unfold translateRating
    rw [hnone]

/-- Claim C8 witness: a mixed-case extreme-fear label and an unrecognized
label through the two parts of the statement. -/
theorem rating_translation_cases_wit :
    translateRating "ExTreme FEAR" = "极度恐惧 🥶" ∧
    translateRating "Uncertainty" = "Uncertainty" :=
  ⟨(rating_translation_cases "ExTreme FEAR").1 (by decide),
   (rating_translation_cases "Uncertainty").2 (by decide)⟩

/-- Claim C9 counterexample: line 37 applies int() with no range check, so a
well-formed payload whose score field is 150 produces the integer score 150,
which lies outside [0,100]. -/
theorem score_range_cex :
    (get_fear_and_greed_index
        (.response 200 (some ⟨some (.jint 150), some "greed"⟩))).1 =
      ScoreVal.int 150 ∧ ¬((150 : Int) ≤ 100) :=
  ⟨by decide, by decide⟩

/-- Claim C9 (amended): every reading the function produces carries either
the unavailable marker or an integer score, and in the integer case the
score is exactly the int() conversion of the upstream score field — the code
neither clamps nor validates the [0,100] range. -/
theorem score_shape (o : HttpOutcome) :
    (get_fear_and_greed_index o).1 = ScoreVal.na ∨
    ∃ s p j n, o = HttpOutcome.response s (some p) ∧ p.score = some j ∧
      pyInt j = some n ∧
      (get_fear_and_greed_index o).1 = ScoreVal.int n := by
  cases o with
  | netFailure => exact Or.inl rfl
  | response s body =>
    by_cases h45 : 400 ≤ s ∧ s < 600
    · left
      simp [get_fear_and_greed_index, h45]
    · cases body with
      | none =>
        left
        simp [get_fear_and_greed_index, h45]
      | some p =>
        rcases hsc : p.score with _ | j
        · left
          simp [get_fear_and_greed_index, h45, hsc]
        · rcases hra : p.rating with _ | ra
          · left
            simp [get_fear_and_greed_index, h45, hsc, hra]
          · rcases hj : pyInt j with _ | n
            · left
              simp [get_fear_and_greed_index, h45, hsc, hra, hj]
            · right
              exact ⟨s, p, j, n, rfl, hsc, hj,
                by simp [get_fear_and_greed_index, h45, hsc, hra, hj]⟩

/-- Claim C10: a 2xx response whose score field is the decimal string "45.7"
makes int() raise ValueError, absorbed by the generic except branch: the
result is the unavailable reading, not a numeric score. -/
theorem fractional_score_unavailable :
    get_fear_and_greed_index
        (.response 200 (some ⟨some (.jstr "45.7"), some "neutral"⟩)) =
      (ScoreVal.na, "处理失败") := by
  decide

end SP500
